import Mathlib

/-!
Verification of the Zivid C++ sample programs.

This file gives a shallow embedding of the two sample programs:

* `CaptureHalconViaZivid.cpp`: conversion of a Zivid point cloud into
  Halcon tuple arrays (`zividToHalconPointCloud`), the capture-and-save
  loop of `main`, and the top-level exception handlers.

* the multi-camera benchmark (`MeasuredTimes`, the warmup and measured
  capture loops of `main`, and the statistics pass).

Machine floats never undergo arithmetic in the code under study: the
conversion only copies float values and tests them for NaN.  A float is
therefore modelled as `Option Int`: `none` is a NaN, `some v` a non-NaN
payload.  Durations (`std::chrono::nanoseconds`) are modelled as `Int`
tick counts.
-/

/-- A float value as used by the conversion: `none` models NaN,
`some v` a non-NaN payload (the payload is opaque to the code, which
only copies it, so `Int` suffices). -/
abbrev Flt := Option Int

/-- `std::isnan` on a modelled float. -/
def isnan (v : Flt) : Bool := v.isNone

/-- `Zivid::PointXYZ` (also used for normals): three float components. -/
structure PointXYZ where
  x : Flt
  y : Flt
  z : Flt
deriving DecidableEq, Repr

/-- Modelled from the spec: `Zivid::PointXYZ::isNaN`, the whole-point
NaN test of the camera SDK (a black box to this repository).  The glossary of the spec defines a valid point as "a grid cell whose 3D coordinate is
not a not-a-number sentinel"; the sentinel for an unreconstructed point
has every coordinate NaN, so the whole-point test holds exactly when all
three components are NaN. -/
def PointXYZ.isNaN (p : PointXYZ) : Bool :=
  isnan p.x && isnan p.y && isnan p.z

/-- `Zivid::ColorRGBA`: four 8-bit channels, modelled as integers. -/
structure ColorRGBA where
  r : Int
  g : Int
  b : Int
  a : Int
deriving DecidableEq, Repr

/-- The data the conversion reads from a `Zivid::PointCloud`: its
dimensions and, for each grid cell `(row, col)`, the copied point,
normal and color (`copyPointsXYZ`, `copyNormalsXYZ`, `copyColorsRGBA`
expose row-major grids addressable by `(row, col)`). -/
structure Frame where
  width : Nat
  height : Nat
  pointAt : Nat → Nat → PointXYZ
  normalAt : Nat → Nat → PointXYZ
  colorAt : Nat → Nat → ColorRGBA

/-- The row-major scan order of the double loop
`for i < height, for j < width`: the list of `(row, col)` pairs. -/
def Frame.cells (f : Frame) : List (Nat × Nat) :=
  ((List.range f.height).map fun i =>
    (List.range f.width).map fun j => (i, j)).flatten

/-- `numberOfValidPoints`: `std::count_if` of `!point.isNaN()` over the
whole grid (lines 35–38 of the C++ source). -/
def numberOfValidPoints (f : Frame) : Nat :=
  (f.cells.filter fun c => !(f.pointAt c.1 c.2).isNaN).length

/-- Halcon `HTuple` indexed assignment `t[idx] = v`.  A negative index
is outside the defined domain (`none`).  Assignment beyond the current
length grows the tuple to `idx + 1` elements, initializing the new
elements to `zero`. -/
def hset (t : List α) (idx : Int) (v zero : α) : Option (List α) :=
  if idx < 0 then none
  else
    let i := idx.toNat
    if i < t.length then some (t.set i v)
    else some ((t ++ List.replicate (i + 1 - t.length) zero).set i v)

/-- A raw write through `HTuple::DArr()` / `HTuple::LArr()`: stores into
an existing slot and never grows the tuple; an out-of-bounds write is
undefined behaviour (`none`). -/
def rawset (t : List α) (i : Nat) (v : α) : Option (List α) :=
  if i < t.length then some (t.set i v) else none

/-- The twelve `HTuple`s filled by the conversion.  Point and normal
tuples hold doubles (`Flt`), color tuples and the mapping tuple hold
`Hlong` integers. -/
structure HalconTuples where
  pointsX : List Flt
  pointsY : List Flt
  pointsZ : List Flt
  normalsX : List Flt
  normalsY : List Flt
  normalsZ : List Flt
  colorsR : List Int
  colorsG : List Int
  colorsB : List Int
  xyzMapping : List Int
deriving DecidableEq, Repr

/-- Lines 47–59 of the C++ source: size the nine point/normal/color
tuples by assigning index `numberOfValidPoints - 1`, then size the
mapping tuple by assigning index `2*numberOfValidPoints + 2 - 1` and
store `width` at index 0 and `height` at index 1.  The C++ index
arithmetic is over `int`, so `k = 0` assigns index `-1`. -/
def preallocate (k : Nat) (w h : Nat) : Option HalconTuples := do
  let px ← hset [] ((k : Int) - 1) (some 0) (some 0)
  let py ← hset [] ((k : Int) - 1) (some 0) (some 0)
  let pz ← hset [] ((k : Int) - 1) (some 0) (some 0)
  let nx ← hset [] ((k : Int) - 1) (some 0) (some 0)
  let ny ← hset [] ((k : Int) - 1) (some 0) (some 0)
  let nz ← hset [] ((k : Int) - 1) (some 0) (some 0)
  let cr ← hset [] ((k : Int) - 1) 0 0
  let cg ← hset [] ((k : Int) - 1) 0 0
  let cb ← hset [] ((k : Int) - 1) 0 0
  let m0 ← hset [] (2 * (k : Int) + 2 - 1) 0 0
  let m1 ← hset m0 0 (w : Int) 0
  let m2 ← hset m1 1 (h : Int) 0
  some ⟨px, py, pz, nx, ny, nz, cr, cg, cb, m2⟩

/-- The state threaded through the compaction loop: the tuples and the
`validPointIndex` counter. -/
structure LoopState where
  tup : HalconTuples
  validPointIndex : Nat
deriving DecidableEq, Repr

/-- One iteration of the compaction loop (lines 63–92 of the C++
source) at cell `c = (row, col)`: if `isnan(point.x)` the cell is
skipped; otherwise the point, color and mapping entries are written at
`validPointIndex`, the normal entries are written only when
`!isnan(normal.x)`, and the counter is incremented. -/
def writeCell (f : Frame) (k : Nat) (s : LoopState) (c : Nat × Nat) :
    Option LoopState := do
  let point := f.pointAt c.1 c.2
  let normal := f.normalAt c.1 c.2
  let color := f.colorAt c.1 c.2
  if isnan point.x then
    some s
  else
    let idx := s.validPointIndex
    let px ← rawset s.tup.pointsX idx point.x
    let py ← rawset s.tup.pointsY idx point.y
    let pz ← rawset s.tup.pointsZ idx point.z
    let cr ← rawset s.tup.colorsR idx color.r
    let cg ← rawset s.tup.colorsG idx color.g
    let cb ← rawset s.tup.colorsB idx color.b
    let m1 ← rawset s.tup.xyzMapping (2 + idx) (c.1 : Int)
    let m2 ← rawset m1 (2 + k + idx) (c.2 : Int)
    if isnan normal.x then
      some ⟨⟨px, py, pz, s.tup.normalsX, s.tup.normalsY, s.tup.normalsZ,
             cr, cg, cb, m2⟩, idx + 1⟩
    else
      let nx ← rawset s.tup.normalsX idx normal.x
      let ny ← rawset s.tup.normalsY idx normal.y
      let nz ← rawset s.tup.normalsZ idx normal.z
      some ⟨⟨px, py, pz, nx, ny, nz, cr, cg, cb, m2⟩, idx + 1⟩

/-- The whole compaction double loop: fold `writeCell` over the
row-major cells starting from `validPointIndex = 0`. -/
def compactLoop (f : Frame) (k : Nat) (init : HalconTuples) :
    Option LoopState :=
  f.cells.foldlM (writeCell f k) ⟨init, 0⟩

/-- `zividToHalconPointCloud`, restricted to the part that builds the
tuple arrays (the subsequent `HObjectModel3D` construction belongs to
the Halcon SDK, a black box).  `none` models undefined behaviour of the
tuple manipulation. -/
def zividToHalconPointCloud (f : Frame) : Option HalconTuples := do
  let k := numberOfValidPoints f
  let init ← preallocate k f.width f.height
  let final ← compactLoop f k init
  some final.tup

/-- The per-cell validity test of the loop: `!isnan(point.x)`. -/
def xvalid (f : Frame) (c : Nat × Nat) : Bool :=
  !(isnan (f.pointAt c.1 c.2).x)

/-- The cells the loop actually compacts, in scan order: those whose
point passes the per-cell `!isnan(point.x)` test of the loop. -/
def vCells (f : Frame) : List (Nat × Nat) :=
  f.cells.filter (xvalid f)

/-- How many cells of `cs` pass the validity test of the loop. -/
def cntX (f : Frame) (cs : List (Nat × Nat)) : Nat :=
  (cs.filter (xvalid f)).length

/-- Expected contents of a point-coordinate tuple after compacting the
valid cells `vs`: the chosen coordinate of each cell in order. -/
def expPt (f : Frame) (comp : PointXYZ → Flt) (vs : List (Nat × Nat)) :
    List Flt :=
  vs.map fun c => comp (f.pointAt c.1 c.2)

/-- Expected contents of a normal tuple: the chosen component where the
x component of the normal is non-NaN, the zero-initialized value otherwise. -/
def expNm (f : Frame) (comp : PointXYZ → Flt) (vs : List (Nat × Nat)) :
    List Flt :=
  vs.map fun c =>
    if isnan (f.normalAt c.1 c.2).x then some 0 else comp (f.normalAt c.1 c.2)

/-- Expected contents of a color tuple. -/
def expCl (f : Frame) (comp : ColorRGBA → Int) (vs : List (Nat × Nat)) :
    List Int :=
  vs.map fun c => comp (f.colorAt c.1 c.2)

/-- Expected row entries of the mapping tuple. -/
def expRows (vs : List (Nat × Nat)) : List Int := vs.map fun c => (c.1 : Int)

/-- Expected column entries of the mapping tuple. -/
def expCols (vs : List (Nat × Nat)) : List Int := vs.map fun c => (c.2 : Int)

/-- The loop invariant: after compacting exactly the valid cells `vs`
(in order), the counter equals `vs.length`, every tuple is the expected
compacted prefix followed by its zero-initialized tail, and the mapping
tuple is `[width, height]` followed by the row block and the column
block, each of size `k`. -/
def StateSpec (f : Frame) (k w h : Nat) (vs : List (Nat × Nat))
    (s : LoopState) : Prop :=
  s.validPointIndex = vs.length ∧
  vs.length ≤ k ∧
  s.tup.pointsX = expPt f (·.x) vs ++ List.replicate (k - vs.length) (some 0) ∧
  s.tup.pointsY = expPt f (·.y) vs ++ List.replicate (k - vs.length) (some 0) ∧
  s.tup.pointsZ = expPt f (·.z) vs ++ List.replicate (k - vs.length) (some 0) ∧
  s.tup.normalsX = expNm f (·.x) vs ++ List.replicate (k - vs.length) (some 0) ∧
  s.tup.normalsY = expNm f (·.y) vs ++ List.replicate (k - vs.length) (some 0) ∧
  s.tup.normalsZ = expNm f (·.z) vs ++ List.replicate (k - vs.length) (some 0) ∧
  s.tup.colorsR = expCl f (·.r) vs ++ List.replicate (k - vs.length) 0 ∧
  s.tup.colorsG = expCl f (·.g) vs ++ List.replicate (k - vs.length) 0 ∧
  s.tup.colorsB = expCl f (·.b) vs ++ List.replicate (k - vs.length) 0 ∧
  s.tup.xyzMapping =
    (f.width : Int) :: (f.height : Int) ::
      ((expRows vs ++ List.replicate (k - vs.length) 0) ++
       (expCols vs ++ List.replicate (k - vs.length) 0)) ∧
  w = f.width ∧ h = f.height

theorem set_len_append (P : List α) (v z : α) (t : List α) :
    (P ++ z :: t).set P.length v = P ++ v :: t := by
  induction P with
  | nil => rfl
  | cons a P ih => simp [ih]

theorem rawset_at (P : List α) (z v : α) (t : List α) :
    rawset (P ++ z :: t) P.length v = some (P ++ v :: t) := by
  unfold rawset
  rw [if_pos (by simp)]
  rw [set_len_append]

theorem rawset_pad (A : List α) (z v : α) (n : Nat) (B : List α) :
    rawset (A ++ (List.replicate (n + 1) z ++ B)) A.length v
      = some (A ++ (v :: (List.replicate n z ++ B))) := by
  rw [List.replicate_succ, List.cons_append, rawset_at]

theorem rawset_pad0 (A : List α) (z v : α) (n : Nat) :
    rawset (A ++ List.replicate (n + 1) z) A.length v
      = some ((A ++ [v]) ++ List.replicate n z) := by
  rw [List.replicate_succ, rawset_at]
  simp

/-- `writeCell` skips a cell whose point fails the per-cell test. -/
theorem writeCell_skip (f : Frame) (k : Nat) (s : LoopState) (c : Nat × Nat)
    (h : xvalid f c = false) : writeCell f k s c = some s := by
  have h' : isnan (f.pointAt c.1 c.2).x = true := by
    simpa [xvalid] using h
  simp [writeCell, h']


/-- One valid cell advances the loop invariant: the eight unconditional
writes and the conditional normal writes all land in bounds and extend
the compacted prefixes by the data of the cell. -/
theorem writeCell_step (f : Frame) (k w h : Nat) (vs : List (Nat × Nat))
    (s : LoopState) (c : Nat × Nat)
    (hS : StateSpec f k w h vs s) (hv : xvalid f c = true)
    (hlt : vs.length < k) :
    ∃ s', writeCell f k s c = some s' ∧ StateSpec f k w h (vs ++ [c]) s' := by
  obtain ⟨hidx, hle, hPX, hPY, hPZ, hNX, hNY, hNZ, hCR, hCG, hCB, hM, hw, hh⟩ := hS
  have hpx : isnan (f.pointAt c.1 c.2).x = false := by
    simpa [xvalid] using hv
  obtain ⟨n, hn⟩ : ∃ n, k - vs.length = n + 1 := ⟨k - vs.length - 1, by omega⟩
  have hkn : k - (vs.length + 1) = n := by omega
  have hk : k = vs.length + n + 1 := by omega
  have ePX : rawset s.tup.pointsX s.validPointIndex ((f.pointAt c.1 c.2).x)
      = some (expPt f (·.x) (vs ++ [c]) ++ List.replicate n (some 0)) := by
    rw [hPX, hidx, hn]
    rw [show vs.length = (expPt f (·.x) vs).length by simp [expPt]]
    rw [rawset_pad0]
    simp [expPt]
  have ePY : rawset s.tup.pointsY s.validPointIndex ((f.pointAt c.1 c.2).y)
      = some (expPt f (·.y) (vs ++ [c]) ++ List.replicate n (some 0)) := by
    rw [hPY, hidx, hn]
    rw [show vs.length = (expPt f (·.y) vs).length by simp [expPt]]
    rw [rawset_pad0]
    simp [expPt]
  have ePZ : rawset s.tup.pointsZ s.validPointIndex ((f.pointAt c.1 c.2).z)
      = some (expPt f (·.z) (vs ++ [c]) ++ List.replicate n (some 0)) := by
    rw [hPZ, hidx, hn]
    rw [show vs.length = (expPt f (·.z) vs).length by simp [expPt]]
    rw [rawset_pad0]
    simp [expPt]
  have eCR : rawset s.tup.colorsR s.validPointIndex ((f.colorAt c.1 c.2).r)
      = some (expCl f (·.r) (vs ++ [c]) ++ List.replicate n 0) := by
    rw [hCR, hidx, hn]
    rw [show vs.length = (expCl f (·.r) vs).length by simp [expCl]]
    rw [rawset_pad0]
    simp [expCl]
  have eCG : rawset s.tup.colorsG s.validPointIndex ((f.colorAt c.1 c.2).g)
      = some (expCl f (·.g) (vs ++ [c]) ++ List.replicate n 0) := by
    rw [hCG, hidx, hn]
    rw [show vs.length = (expCl f (·.g) vs).length by simp [expCl]]
    rw [rawset_pad0]
    simp [expCl]
  have eCB : rawset s.tup.colorsB s.validPointIndex ((f.colorAt c.1 c.2).b)
      = some (expCl f (·.b) (vs ++ [c]) ++ List.replicate n 0) := by
    rw [hCB, hidx, hn]
    rw [show vs.length = (expCl f (·.b) vs).length by simp [expCl]]
    rw [rawset_pad0]
    simp [expCl]
  have eM1 : rawset s.tup.xyzMapping (2 + s.validPointIndex) ((c.1 : Int))
      = some ((f.width : Int) :: (f.height : Int) ::
          ((expRows vs ++ (c.1 : Int) :: List.replicate n 0) ++
           (expCols vs ++ List.replicate (n + 1) 0))) := by
    rw [hM, hidx, hn]
    rw [show (f.width : Int) :: (f.height : Int) ::
          ((expRows vs ++ List.replicate (n + 1) 0) ++
           (expCols vs ++ List.replicate (n + 1) 0))
        = ((f.width : Int) :: (f.height : Int) :: expRows vs) ++
          (List.replicate (n + 1) 0 ++ (expCols vs ++ List.replicate (n + 1) 0))
      by simp [List.append_assoc]]
    rw [show 2 + vs.length
        = ((f.width : Int) :: (f.height : Int) :: expRows vs).length
      by simp [expRows]; omega]
    rw [rawset_pad]
    simp [List.append_assoc]
  have eM2 : rawset ((f.width : Int) :: (f.height : Int) ::
        ((expRows vs ++ (c.1 : Int) :: List.replicate n 0) ++
         (expCols vs ++ List.replicate (n + 1) 0)))
        (2 + k + s.validPointIndex) ((c.2 : Int))
      = some ((f.width : Int) :: (f.height : Int) ::
          ((expRows (vs ++ [c]) ++ List.replicate n 0) ++
           (expCols (vs ++ [c]) ++ List.replicate n 0))) := by
    rw [hidx]
    rw [show (f.width : Int) :: (f.height : Int) ::
          ((expRows vs ++ (c.1 : Int) :: List.replicate n 0) ++
           (expCols vs ++ List.replicate (n + 1) 0))
        = ((f.width : Int) :: (f.height : Int) ::
            ((expRows vs ++ (c.1 : Int) :: List.replicate n 0) ++ expCols vs)) ++
          List.replicate (n + 1) 0
      by simp [List.append_assoc]]
    rw [show 2 + k + vs.length
        = ((f.width : Int) :: (f.height : Int) ::
            ((expRows vs ++ (c.1 : Int) :: List.replicate n 0) ++
             expCols vs)).length
      by simp [expRows, expCols]; omega]
    rw [rawset_pad0]
    simp [expRows, expCols, List.append_assoc]
  cases hnm : isnan (f.normalAt c.1 c.2).x with
  | true =>
    refine ⟨⟨⟨expPt f (·.x) (vs ++ [c]) ++ List.replicate n (some 0),
              expPt f (·.y) (vs ++ [c]) ++ List.replicate n (some 0),
              expPt f (·.z) (vs ++ [c]) ++ List.replicate n (some 0),
              s.tup.normalsX, s.tup.normalsY, s.tup.normalsZ,
              expCl f (·.r) (vs ++ [c]) ++ List.replicate n 0,
              expCl f (·.g) (vs ++ [c]) ++ List.replicate n 0,
              expCl f (·.b) (vs ++ [c]) ++ List.replicate n 0,
              (f.width : Int) :: (f.height : Int) ::
                ((expRows (vs ++ [c]) ++ List.replicate n 0) ++
                 (expCols (vs ++ [c]) ++ List.replicate n 0))⟩,
            s.validPointIndex + 1⟩, ?_, ?_⟩
    · simp only [writeCell, hpx, Bool.false_eq_true, if_false,
        ePX, ePY, ePZ, eCR, eCG, eCB, eM1, eM2, hnm, Option.bind_eq_bind, Option.some_bind, if_true]
    · refine ⟨by simp [hidx], by simp; omega, ?_, ?_, ?_, ?_, ?_, ?_, ?_, ?_, ?_, ?_, hw, hh⟩
      all_goals simp [hkn, hNX, hNY, hNZ, expNm, hnm, hn, List.replicate_succ]
  | false =>
    have eNX : rawset s.tup.normalsX s.validPointIndex ((f.normalAt c.1 c.2).x)
        = some (expNm f (·.x) (vs ++ [c]) ++ List.replicate n (some 0)) := by
      rw [hNX, hidx, hn]
      rw [show vs.length = (expNm f (·.x) vs).length by simp [expNm]]
      rw [rawset_pad0]
      simp [expNm, hnm]
    have eNY : rawset s.tup.normalsY s.validPointIndex ((f.normalAt c.1 c.2).y)
        = some (expNm f (·.y) (vs ++ [c]) ++ List.replicate n (some 0)) := by
      rw [hNY, hidx, hn]
      rw [show vs.length = (expNm f (·.y) vs).length by simp [expNm]]
      rw [rawset_pad0]
      simp [expNm, hnm]
    have eNZ : rawset s.tup.normalsZ s.validPointIndex ((f.normalAt c.1 c.2).z)
        = some (expNm f (·.z) (vs ++ [c]) ++ List.replicate n (some 0)) := by
      rw [hNZ, hidx, hn]
      rw [show vs.length = (expNm f (·.z) vs).length by simp [expNm]]
      rw [rawset_pad0]
      simp [expNm, hnm]
    refine ⟨⟨⟨expPt f (·.x) (vs ++ [c]) ++ List.replicate n (some 0),
              expPt f (·.y) (vs ++ [c]) ++ List.replicate n (some 0),
              expPt f (·.z) (vs ++ [c]) ++ List.replicate n (some 0),
              expNm f (·.x) (vs ++ [c]) ++ List.replicate n (some 0),
              expNm f (·.y) (vs ++ [c]) ++ List.replicate n (some 0),
              expNm f (·.z) (vs ++ [c]) ++ List.replicate n (some 0),
              expCl f (·.r) (vs ++ [c]) ++ List.replicate n 0,
              expCl f (·.g) (vs ++ [c]) ++ List.replicate n 0,
              expCl f (·.b) (vs ++ [c]) ++ List.replicate n 0,
              (f.width : Int) :: (f.height : Int) ::
                ((expRows (vs ++ [c]) ++ List.replicate n 0) ++
                 (expCols (vs ++ [c]) ++ List.replicate n 0))⟩,
            s.validPointIndex + 1⟩, ?_, ?_⟩
    · simp only [writeCell, hpx, Bool.false_eq_true, if_false,
        ePX, ePY, ePZ, eCR, eCG, eCB, eM1, eM2, eNX, eNY, eNZ, hnm,
        Option.bind_eq_bind, Option.some_bind, if_true]
    · refine ⟨by simp [hidx], by simp; omega, ?_, ?_, ?_, ?_, ?_, ?_, ?_, ?_, ?_, ?_, hw, hh⟩
      all_goals simp [hkn]

/-- Folding `writeCell` over a cell list preserves and extends the
invariant, provided the valid cells still to come fit the headroom. -/
theorem foldlM_writeCell (f : Frame) (k w h : Nat) :
    ∀ (cs vs : List (Nat × Nat)) (s : LoopState),
      StateSpec f k w h vs s → vs.length + cntX f cs ≤ k →
      ∃ s', cs.foldlM (writeCell f k) s = some s' ∧
            StateSpec f k w h (vs ++ cs.filter (xvalid f)) s'
  | [], vs, s, hS, _ => ⟨s, by simp, by simpa using hS⟩
  | c :: cs, vs, s, hS, hfit => by
    cases hv : xvalid f c with
    | false =>
      have hskip := writeCell_skip f k s c hv
      have hcnt : cntX f (c :: cs) = cntX f cs := by
        simp [cntX, hv]
      have hfit' : vs.length + cntX f cs ≤ k := by omega
      obtain ⟨s', h1, h2⟩ := foldlM_writeCell f k w h cs vs s hS hfit'
      refine ⟨s', ?_, ?_⟩
      · rw [List.foldlM_cons, hskip]
        simpa [Option.bind_eq_bind, Option.some_bind] using h1
      · simpa [hv] using h2
    | true =>
      have hcnt : cntX f (c :: cs) = cntX f cs + 1 := by
        simp [cntX, hv]
      have hlt : vs.length < k := by omega
      obtain ⟨s1, hw1, hS1⟩ := writeCell_step f k w h vs s c hS hv hlt
      have hfit' : (vs ++ [c]).length + cntX f cs ≤ k := by
        simp only [List.length_append, List.length_cons, List.length_nil]
        omega
      obtain ⟨s', h1, h2⟩ := foldlM_writeCell f k w h cs (vs ++ [c]) s1 hS1 hfit'
      refine ⟨s', ?_, ?_⟩
      · rw [List.foldlM_cons, hw1]
        simpa [Option.bind_eq_bind, Option.some_bind] using h1
      · simpa [hv, List.append_assoc] using h2

theorem set_replicate_self (z : α) :
    ∀ (m i : Nat), (List.replicate m z).set i z = List.replicate m z
  | 0, _ => rfl
  | m + 1, 0 => by simp [List.replicate_succ]
  | m + 1, i + 1 => by
    simp [List.replicate_succ, set_replicate_self z m i]

theorem hset_empty (k : Nat) (hk : 1 ≤ k) (z : α) :
    hset ([] : List α) ((k : Int) - 1) z z = some (List.replicate k z) := by
  unfold hset
  rw [if_neg (by omega)]
  have h2 : ((k : Int) - 1).toNat = k - 1 := by omega
  simp only [h2, List.length_nil, List.nil_append]
  rw [if_neg (by omega)]
  have h3 : k - 1 + 1 - 0 = k := by omega
  rw [h3, set_replicate_self]

theorem hset_mapping0 (k : Nat) :
    hset ([] : List Int) (2 * (k : Int) + 2 - 1) 0 0
      = some (List.replicate (2 * k + 2) 0) := by
  unfold hset
  rw [if_neg (by omega)]
  have h2 : (2 * (k : Int) + 2 - 1).toNat = 2 * k + 1 := by omega
  simp only [h2, List.length_nil, List.nil_append]
  rw [if_neg (by omega)]
  have h3 : 2 * k + 1 + 1 - 0 = 2 * k + 2 := by omega
  rw [h3, set_replicate_self]

theorem hset_mapping1 (k w : Nat) :
    hset (List.replicate (2 * k + 2) 0) 0 (w : Int) 0
      = some ((w : Int) :: List.replicate (2 * k + 1) 0) := by
  unfold hset
  rw [if_neg (by omega)]
  simp [List.replicate_succ]

theorem hset_mapping2 (k w h : Nat) :
    hset ((w : Int) :: List.replicate (2 * k + 1) 0) 1 (h : Int) 0
      = some ((w : Int) :: (h : Int) :: List.replicate (2 * k) 0) := by
  unfold hset
  rw [if_neg (by omega)]
  simp [List.replicate_succ]

/-- For `k ≥ 1` the preallocation succeeds and yields zero-filled
tuples of length `k` and a mapping tuple `[w, h, 0, ..., 0]` of length
`2k + 2`. -/
theorem preallocate_eq (k w h : Nat) (hk : 1 ≤ k) :
    preallocate k w h = some
      ⟨List.replicate k (some 0), List.replicate k (some 0),
       List.replicate k (some 0), List.replicate k (some 0),
       List.replicate k (some 0), List.replicate k (some 0),
       List.replicate k 0, List.replicate k 0, List.replicate k 0,
       (w : Int) :: (h : Int) :: List.replicate (2 * k) 0⟩ := by
  simp only [preallocate, hset_empty k hk, hset_mapping0 k,
    hset_mapping1 k w, hset_mapping2 k w h,
    Option.bind_eq_bind, Option.some_bind]

/-- `k = 0` makes the preallocation index the tuples at `-1`: outside
the defined domain. -/
theorem preallocate_zero (w h : Nat) : preallocate 0 w h = none := by
  rfl

/-- The invariant holds initially on the preallocated tuples. -/
theorem init_spec (f : Frame) (k : Nat) :
    StateSpec f k f.width f.height []
      ⟨⟨List.replicate k (some 0), List.replicate k (some 0),
        List.replicate k (some 0), List.replicate k (some 0),
        List.replicate k (some 0), List.replicate k (some 0),
        List.replicate k 0, List.replicate k 0, List.replicate k 0,
        (f.width : Int) :: (f.height : Int) :: List.replicate (2 * k) 0⟩,
       0⟩ := by
  refine ⟨rfl, by simp, by simp [expPt], by simp [expPt], by simp [expPt],
    by simp [expNm], by simp [expNm], by simp [expNm],
    by simp [expCl], by simp [expCl], by simp [expCl], ?_, rfl, rfl⟩
  simp only [expRows, expCols, List.map_nil, List.nil_append,
    List.length_nil, Nat.sub_zero]
  rw [Nat.two_mul, List.replicate_add]

/-- Every cell the loop writes is also counted by `count_if`: a point
with a non-NaN x component is not the whole-point NaN sentinel. -/
theorem cntX_le (f : Frame) (cs : List (Nat × Nat)) :
    cntX f cs ≤ (cs.filter fun c => !(f.pointAt c.1 c.2).isNaN).length := by
  simp only [cntX, ← List.countP_eq_length_filter]
  refine List.countP_mono_left ?_
  intro c _ hc
  simp only [xvalid, Bool.not_eq_true'] at hc
  simp [PointXYZ.isNaN, hc]

/-- When the whole-point test and the per-cell x test of the loop agree on every
cell, the valid-cell count of the loop equals `numberOfValidPoints`. -/
theorem cntX_eq_of_agree (f : Frame)
    (hAgree : ∀ c ∈ f.cells,
      (f.pointAt c.1 c.2).isNaN = isnan (f.pointAt c.1 c.2).x) :
    cntX f f.cells = numberOfValidPoints f := by
  simp only [cntX, numberOfValidPoints, ← List.countP_eq_length_filter]
  refine List.countP_congr ?_
  intro c hc
  simp [xvalid, hAgree c hc]

/-- Master characterization: for a frame with at least one counted
valid point, the conversion succeeds and its final state satisfies the
loop invariant at the full list of compacted cells `vCells f`. -/
theorem zividToHalcon_spec (f : Frame) (hk : 1 ≤ numberOfValidPoints f) :
    ∃ s', zividToHalconPointCloud f = some s'.tup ∧
      StateSpec f (numberOfValidPoints f) f.width f.height (vCells f) s' := by
  have hfit : cntX f f.cells ≤ numberOfValidPoints f := cntX_le f f.cells
  obtain ⟨s', hfold, hspec⟩ :=
    foldlM_writeCell f (numberOfValidPoints f) f.width f.height f.cells []
      _ (init_spec f (numberOfValidPoints f)) (by simpa using hfit)
  refine ⟨s', ?_, by simpa [vCells] using hspec⟩
  simp only [zividToHalconPointCloud,
    preallocate_eq (numberOfValidPoints f) f.width f.height hk,
    Option.bind_eq_bind, Option.some_bind]
  rw [show compactLoop f (numberOfValidPoints f) _ = some s' from hfold]
  rfl

theorem getD_map_of_lt {β : Type} (g : α → β) (l : List α) (i : Nat)
    (h : i < l.length) (d : β) (d' : α) :
    (l.map g).getD i d = g (l.getD i d') := by
  simp [List.getD_eq_getElem?_getD, List.getElem?_map,
    List.getElem?_eq_getElem h]

/-- The whole-point NaN sentinel. -/
def nanPoint : PointXYZ := ⟨none, none, none⟩

/-- A 1×1 frame holding only the NaN sentinel. -/
def allNaNFrame : Frame :=
  ⟨1, 1, fun _ _ => nanPoint, fun _ _ => nanPoint, fun _ _ => ⟨0, 0, 0, 0⟩⟩

/-- A 2×2 frame holding only NaN sentinels. -/
def allNaN2Frame : Frame :=
  ⟨2, 2, fun _ _ => nanPoint, fun _ _ => nanPoint, fun _ _ => ⟨0, 0, 0, 0⟩⟩

/-- A 1×2 frame: cell (0,0) is the NaN sentinel, cell (0,1) carries a
valid point with a valid normal. -/
def demoFrame : Frame :=
  ⟨2, 1,
   fun _ j => if j = 0 then nanPoint else ⟨some 1, some 2, some 3⟩,
   fun _ j => if j = 0 then nanPoint else ⟨some 4, some 5, some 6⟩,
   fun _ _ => ⟨7, 8, 9, 10⟩⟩

/-- A 1×1 frame with a valid point whose normal has a non-NaN x
component but a NaN y component. -/
def mixFrame : Frame :=
  ⟨1, 1, fun _ _ => ⟨some 1, some 2, some 3⟩,
   fun _ _ => ⟨some 0, none, some 5⟩, fun _ _ => ⟨7, 8, 9, 10⟩⟩

/-- C8: `zividToHalconPointCloud` is only well-defined when at least
one point is counted valid: with `numberOfValidPoints = 0` the
preallocation step indexes the nine output tuples at position
`numberOfValidPoints - 1 = -1` (while the mapping tuple is sized via
index `2*0 + 2 - 1 = 1` and stores width and height), so the
no-valid-points case is outside the defined domain of the function (`none`
in this model). -/
theorem conversion_needs_valid_point (f : Frame)
    (h : numberOfValidPoints f = 0) : zividToHalconPointCloud f = none := by
  simp only [zividToHalconPointCloud, h, preallocate_zero,
    Option.bind_eq_bind, Option.none_bind]

theorem conversion_needs_valid_point_witness :
    numberOfValidPoints allNaNFrame = 0 ∧
      zividToHalconPointCloud allNaNFrame = none :=
  ⟨by decide, conversion_needs_valid_point allNaNFrame (by decide)⟩

/-- C9: provided the whole-point NaN test used for counting
(`point.isNaN()`) holds exactly when the per-cell test of the loop
(`isnan(point.x)`) holds, the compaction loop run on the preallocated
tuples completes — in this model completion means every raw write
landed within the preallocated bounds — and its final running index
`validPointIndex` equals the precomputed `numberOfValidPoints`. -/
theorem compaction_index_meets_count (f : Frame)
    (hk : 1 ≤ numberOfValidPoints f)
    (hAgree : ∀ c ∈ f.cells,
      (f.pointAt c.1 c.2).isNaN = isnan (f.pointAt c.1 c.2).x) :
    ∃ init s',
      preallocate (numberOfValidPoints f) f.width f.height = some init ∧
      compactLoop f (numberOfValidPoints f) init = some s' ∧
      s'.validPointIndex = numberOfValidPoints f := by
  obtain ⟨s', hfold, hspec⟩ :=
    foldlM_writeCell f (numberOfValidPoints f) f.width f.height f.cells []
      _ (init_spec f (numberOfValidPoints f))
      (by simpa using cntX_le f f.cells)
  refine ⟨_, s', preallocate_eq _ _ _ hk, hfold, ?_⟩
  have h1 := hspec.1
  simp only [List.nil_append] at h1
  rw [h1]
  exact cntX_eq_of_agree f hAgree

theorem compaction_index_meets_count_witness :
    1 ≤ numberOfValidPoints demoFrame ∧
    ∃ init s',
      preallocate (numberOfValidPoints demoFrame) demoFrame.width
        demoFrame.height = some init ∧
      compactLoop demoFrame (numberOfValidPoints demoFrame) init = some s' ∧
      s'.validPointIndex = numberOfValidPoints demoFrame :=
  ⟨by decide, compaction_index_meets_count demoFrame (by decide) (by decide)⟩

/-- C1 counterexample: a 2×2 grid of NaN sentinels has `k = 0` non-NaN
entries, yet the conversion produces no arrays at all (in particular
none of length 0): the preallocation indexes the tuples at `-1`. -/
theorem conversion_empty_grid_fails :
    numberOfValidPoints allNaN2Frame = 0 ∧
      zividToHalconPointCloud allNaN2Frame = none := by
  constructor
  · decide
  · decide

/-- C1 (amended): for every grid that contains at least one valid point
and on which the counting test `point.isNaN()` agrees with the loop
test `isnan(point.x)`, the conversion produces point, color and normal
arrays of length exactly `k = numberOfValidPoints`, and the mapping
tuple holds `width` at index 0, `height` at index 1, the row of the
i-th valid point (row-major scan order) at index `2 + i` and its column
at index `2 + k + i`. -/
theorem conversion_shape (f : Frame)
    (hAgree : ∀ c ∈ f.cells,
      (f.pointAt c.1 c.2).isNaN = isnan (f.pointAt c.1 c.2).x)
    (hk : 1 ≤ numberOfValidPoints f) :
    ∃ t, zividToHalconPointCloud f = some t ∧
      t.pointsX.length = numberOfValidPoints f ∧
      t.pointsY.length = numberOfValidPoints f ∧
      t.pointsZ.length = numberOfValidPoints f ∧
      t.colorsR.length = numberOfValidPoints f ∧
      t.colorsG.length = numberOfValidPoints f ∧
      t.colorsB.length = numberOfValidPoints f ∧
      t.normalsX.length = numberOfValidPoints f ∧
      t.normalsY.length = numberOfValidPoints f ∧
      t.normalsZ.length = numberOfValidPoints f ∧
      t.xyzMapping.length = 2 * numberOfValidPoints f + 2 ∧
      t.xyzMapping.getD 0 0 = (f.width : Int) ∧
      t.xyzMapping.getD 1 0 = (f.height : Int) ∧
      (vCells f).length = numberOfValidPoints f ∧
      ∀ i, i < numberOfValidPoints f →
        t.xyzMapping.getD (2 + i) 0 = (((vCells f).getD i (0, 0)).1 : Int) ∧
        t.xyzMapping.getD (2 + numberOfValidPoints f + i) 0
          = (((vCells f).getD i (0, 0)).2 : Int) := by
  obtain ⟨s', ht, hspec⟩ := zividToHalcon_spec f hk
  have hlen : (vCells f).length = numberOfValidPoints f :=
    cntX_eq_of_agree f hAgree
  obtain ⟨hidx, hle, hPX, hPY, hPZ, hNX, hNY, hNZ, hCR, hCG, hCB, hM, _, _⟩ :=
    hspec
  have hsub : numberOfValidPoints f - (vCells f).length = 0 := by omega
  have hMap : s'.tup.xyzMapping =
      (f.width : Int) :: (f.height : Int) ::
        (expRows (vCells f) ++ expCols (vCells f)) := by
    rw [hM, hsub]
    simp
  have hrl : (expRows (vCells f)).length = numberOfValidPoints f := by
    simp [expRows, hlen]
  refine ⟨s'.tup, ht, ?_, ?_, ?_, ?_, ?_, ?_, ?_, ?_, ?_, ?_, ?_, ?_, hlen,
    ?_⟩
  · rw [hPX]; simp [expPt, hlen]
  · rw [hPY]; simp [expPt, hlen]
  · rw [hPZ]; simp [expPt, hlen]
  · rw [hCR]; simp [expCl, hlen]
  · rw [hCG]; simp [expCl, hlen]
  · rw [hCB]; simp [expCl, hlen]
  · rw [hNX]; simp [expNm, hlen]
  · rw [hNY]; simp [expNm, hlen]
  · rw [hNZ]; simp [expNm, hlen]
  · rw [hMap]; simp [expRows, expCols, hlen]; omega
  · rw [hMap]; rfl
  · rw [hMap]; rfl
  · intro i hi
    constructor
    · rw [hMap]
      rw [show 2 + i = i + 2 by omega]
      simp only [List.getD_cons_succ]
      rw [List.getD_append _ _ _ _ (by omega)]
      exact getD_map_of_lt _ _ _ (by omega) _ (0, 0)
    · rw [hMap]
      rw [show 2 + numberOfValidPoints f + i
          = (numberOfValidPoints f + i) + 2 by omega]
      simp only [List.getD_cons_succ]
      rw [List.getD_append_right _ _ _ _ (by omega)]
      rw [show numberOfValidPoints f + i - (expRows (vCells f)).length = i
          by omega]
      exact getD_map_of_lt _ _ _ (by omega) _ (0, 0)

theorem conversion_shape_witness :
    (∀ c ∈ demoFrame.cells,
      (demoFrame.pointAt c.1 c.2).isNaN
        = isnan (demoFrame.pointAt c.1 c.2).x) ∧
    1 ≤ numberOfValidPoints demoFrame ∧
    ∃ t, zividToHalconPointCloud demoFrame = some t ∧
      t.pointsX.length = numberOfValidPoints demoFrame ∧
      t.pointsY.length = numberOfValidPoints demoFrame ∧
      t.pointsZ.length = numberOfValidPoints demoFrame ∧
      t.colorsR.length = numberOfValidPoints demoFrame ∧
      t.colorsG.length = numberOfValidPoints demoFrame ∧
      t.colorsB.length = numberOfValidPoints demoFrame ∧
      t.normalsX.length = numberOfValidPoints demoFrame ∧
      t.normalsY.length = numberOfValidPoints demoFrame ∧
      t.normalsZ.length = numberOfValidPoints demoFrame ∧
      t.xyzMapping.length = 2 * numberOfValidPoints demoFrame + 2 ∧
      t.xyzMapping.getD 0 0 = (demoFrame.width : Int) ∧
      t.xyzMapping.getD 1 0 = (demoFrame.height : Int) ∧
      (vCells demoFrame).length = numberOfValidPoints demoFrame ∧
      ∀ i, i < numberOfValidPoints demoFrame →
        t.xyzMapping.getD (2 + i) 0
          = (((vCells demoFrame).getD i (0, 0)).1 : Int) ∧
        t.xyzMapping.getD (2 + numberOfValidPoints demoFrame + i) 0
          = (((vCells demoFrame).getD i (0, 0)).2 : Int) :=
  ⟨by decide, by decide, conversion_shape demoFrame (by decide) (by decide)⟩

/-- C2 counterexample: in `mixFrame` the single point is valid and its
normal has non-NaN x but NaN y; the loop's guard tests only
`isnan(normal.x)`, so all three normal components are written and a NaN
lands in the normals-y array. -/
theorem normal_nan_written :
    isnan ((mixFrame.normalAt 0 0).y) = true ∧
      (zividToHalconPointCloud mixFrame).map (fun t => t.normalsY)
        = some [none] := by
  constructor
  · decide
  · decide

/-- C2 (amended): for every grid with at least one valid point where
the two point-NaN tests agree, any valid-point cell whose normal has a
NaN x component (in particular any whose whole normal is the NaN
sentinel) keeps its zero-initialized entries in the three normal
arrays; and provided NaN appears in normals only as the whole-normal
sentinel (a normal with non-NaN x also has non-NaN y and z), no NaN is
ever written into the normal arrays. -/
theorem normals_zero_preserved (f : Frame)
    (hAgree : ∀ c ∈ f.cells,
      (f.pointAt c.1 c.2).isNaN = isnan (f.pointAt c.1 c.2).x)
    (hk : 1 ≤ numberOfValidPoints f)
    (hNm : ∀ c ∈ f.cells, isnan (f.normalAt c.1 c.2).x = false →
      isnan (f.normalAt c.1 c.2).y = false ∧
      isnan (f.normalAt c.1 c.2).z = false) :
    ∃ t, zividToHalconPointCloud f = some t ∧
      (∀ i, i < numberOfValidPoints f →
        isnan (f.normalAt ((vCells f).getD i (0, 0)).1
                 ((vCells f).getD i (0, 0)).2).x = true →
        t.normalsX.getD i none = some 0 ∧
        t.normalsY.getD i none = some 0 ∧
        t.normalsZ.getD i none = some 0) ∧
      (∀ v ∈ t.normalsX, v ≠ none) ∧
      (∀ v ∈ t.normalsY, v ≠ none) ∧
      (∀ v ∈ t.normalsZ, v ≠ none) := by
  obtain ⟨s', ht, hspec⟩ := zividToHalcon_spec f hk
  have hlen : (vCells f).length = numberOfValidPoints f :=
    cntX_eq_of_agree f hAgree
  obtain ⟨hidx, hle, hPX, hPY, hPZ, hNX, hNY, hNZ, hCR, hCG, hCB, hM, _, _⟩ :=
    hspec
  have hsub : numberOfValidPoints f - (vCells f).length = 0 := by omega
  have hNXe : s'.tup.normalsX = expNm f (·.x) (vCells f) := by
    rw [hNX, hsub]; simp
  have hNYe : s'.tup.normalsY = expNm f (·.y) (vCells f) := by
    rw [hNY, hsub]; simp
  have hNZe : s'.tup.normalsZ = expNm f (·.z) (vCells f) := by
    rw [hNZ, hsub]; simp
  have hmemCells : ∀ c ∈ vCells f, c ∈ f.cells := by
    intro c hc
    exact List.mem_of_mem_filter hc
  refine ⟨s'.tup, ht, ?_, ?_, ?_, ?_⟩
  · intro i hi hnan
    refine ⟨?_, ?_, ?_⟩
    · rw [hNXe]
      simp only [expNm]
      rw [getD_map_of_lt _ _ _ (by omega) _ (0, 0), hnan]
      rfl
    · rw [hNYe]
      simp only [expNm]
      rw [getD_map_of_lt _ _ _ (by omega) _ (0, 0), hnan]
      rfl
    · rw [hNZe]
      simp only [expNm]
      rw [getD_map_of_lt _ _ _ (by omega) _ (0, 0), hnan]
      rfl
  · rw [hNXe]
    simp only [expNm]
    intro v hv
    obtain ⟨c, hc, hvc⟩ := List.mem_map.mp hv
    by_cases hx : isnan (f.normalAt c.1 c.2).x = true
    · simp [hx] at hvc
      simp [← hvc]
    · simp only [Bool.not_eq_true] at hx
      simp only [hx, if_false, Bool.false_eq_true] at hvc
      rw [← hvc]
      intro hcon
      rw [hcon] at hx
      simp [isnan] at hx
  · rw [hNYe]
    simp only [expNm]
    intro v hv
    obtain ⟨c, hc, hvc⟩ := List.mem_map.mp hv
    by_cases hx : isnan (f.normalAt c.1 c.2).x = true
    · simp [hx] at hvc
      simp [← hvc]
    · simp only [Bool.not_eq_true] at hx
      simp only [hx, if_false, Bool.false_eq_true] at hvc
      rw [← hvc]
      intro hcon
      have := (hNm c (hmemCells c hc) hx).1
      rw [hcon] at this
      simp [isnan] at this
  · rw [hNZe]
    simp only [expNm]
    intro v hv
    obtain ⟨c, hc, hvc⟩ := List.mem_map.mp hv
    by_cases hx : isnan (f.normalAt c.1 c.2).x = true
    · simp [hx] at hvc
      simp [← hvc]
    · simp only [Bool.not_eq_true] at hx
      simp only [hx, if_false, Bool.false_eq_true] at hvc
      rw [← hvc]
      intro hcon
      have := (hNm c (hmemCells c hc) hx).2
      rw [hcon] at this
      simp [isnan] at this

theorem normals_zero_preserved_witness :
    1 ≤ numberOfValidPoints demoFrame ∧
    ∃ t, zividToHalconPointCloud demoFrame = some t ∧
      (∀ i, i < numberOfValidPoints demoFrame →
        isnan (demoFrame.normalAt ((vCells demoFrame).getD i (0, 0)).1
                 ((vCells demoFrame).getD i (0, 0)).2).x = true →
        t.normalsX.getD i none = some 0 ∧
        t.normalsY.getD i none = some 0 ∧
        t.normalsZ.getD i none = some 0) ∧
      (∀ v ∈ t.normalsX, v ≠ none) ∧
      (∀ v ∈ t.normalsY, v ≠ none) ∧
      (∀ v ∈ t.normalsZ, v ≠ none) :=
  ⟨by decide,
   normals_zero_preserved demoFrame (by decide) (by decide) (by decide)⟩

/-- A call to `HObjectModel3D::WriteObjectModel3d` as issued by
`savePointCloud` (lines 14–21): file type, file name, and the single
generic parameter pair. -/
structure SaveCall where
  fileType : String
  fileName : String
  genParamName : String
  genParamValue : String
deriving DecidableEq, Repr

/-- `savePointCloud`: writes the model in "ply" format to `fileName`
with `invert_normals` set to `"false"`. -/
def savePointCloud (fileName : String) : SaveCall :=
  ⟨"ply", fileName, "invert_normals", "false"⟩

/-- The file name used by every iteration of the capture loop
(line 180). -/
def pointCloudFile : String := "Zivid3D.ply"

/-- The sequence of file writes issued by the capture loop of `main`
(lines 171–183): 25 iterations, each capturing, converting, and calling
`savePointCloud` on the same constant file name. -/
def captureLoopSaves : List SaveCall :=
  (List.range 25).map fun _ => savePointCloud pointCloudFile

/-- C10: the capture-and-save loop performs exactly 25 iterations, each
iteration writes the converted point cloud to the same fixed file
"Zivid3D.ply" in PLY format with normal inversion disabled, so every
iteration overwrites the previous output and no other output file is
ever written. -/
theorem capture_loop_saves_spec :
    captureLoopSaves.length = 25 ∧
    (∀ s ∈ captureLoopSaves,
      s.fileName = "Zivid3D.ply" ∧ s.fileType = "ply" ∧
      s.genParamName = "invert_normals" ∧ s.genParamValue = "false") ∧
    (captureLoopSaves.map fun s => s.fileName).dedup = ["Zivid3D.ply"] := by
  refine ⟨by decide, ?_, by decide⟩
  intro s hs
  simp only [captureLoopSaves, List.mem_map] at hs
  obtain ⟨j, _, rfl⟩ := hs
  exact ⟨rfl, rfl, rfl, rfl⟩

/-- The two exception categories distinguished by the samples: Halcon
object-model-library exceptions (`HalconCpp::HException`, carrying
`ErrorMessage()`) and generic `std::exception`s (everything else,
including the camera SDK's). -/
inductive CppException where
  | halcon (msg : String)
  | generic (msg : String)
deriving DecidableEq, Repr

/-- What a program run does at exit after the top-level handlers: the
lines printed to stderr and stdout, whether it blocks on `cin.get()`,
and the process exit code. -/
structure ExitOutcome where
  errLines : List String
  outLines : List String
  waitsForKeypress : Bool
  exitCode : Nat
deriving DecidableEq, Repr

/-- The top-level handlers of `CaptureHalconViaZivid.cpp` `main`
(lines 186–198): `HException` prints to stderr and returns
`EXIT_FAILURE`; any other `std::exception` prints to stderr, prompts,
blocks on `cin.get()`, and returns `EXIT_FAILURE`. -/
def halconSampleHandler : CppException → ExitOutcome
  | .halcon m => ⟨["Error: " ++ m], [], false, 1⟩
  | .generic m => ⟨["Error: " ++ m], ["Press enter to exit."], true, 1⟩

/-- The top-level handler of the multi-camera sample's `main`
(lines 277–283): the only catch clause takes `const std::exception &`
(every exception of that program, the camera SDK's included), prints to
stderr, prompts, blocks on `cin.get()`, and returns `EXIT_FAILURE`. -/
def multiCameraHandler (m : String) : ExitOutcome :=
  ⟨["Error: " ++ m], ["Press enter to exit."], true, 1⟩

/-- C6: on any exception reaching `main`, each program prints an
`Error:` line to the error stream and exits with the non-zero code
`EXIT_FAILURE`; the CaptureHalconViaZivid variant blocks for a keypress
exactly when the exception is a generic (non-object-model-SDK) one,
while the multi-camera variant (whose only handler is the generic one)
always blocks. -/
theorem error_exit_spec :
    (∀ e : CppException,
      (halconSampleHandler e).errLines ≠ [] ∧
      (halconSampleHandler e).exitCode ≠ 0) ∧
    (∀ m : String,
      (multiCameraHandler m).errLines = ["Error: " ++ m] ∧
      (multiCameraHandler m).exitCode ≠ 0 ∧
      (multiCameraHandler m).waitsForKeypress = true) ∧
    (∀ m : String,
      (halconSampleHandler (.halcon m)).errLines = ["Error: " ++ m] ∧
      (halconSampleHandler (.halcon m)).waitsForKeypress = false) ∧
    (∀ m : String,
      (halconSampleHandler (.generic m)).errLines = ["Error: " ++ m] ∧
      (halconSampleHandler (.generic m)).waitsForKeypress = true) := by
  refine ⟨?_, ?_, ?_, ?_⟩
  · intro e
    cases e <;> simp [halconSampleHandler]
  · intro m
    simp [multiCameraHandler]
  · intro m
    simp [halconSampleHandler]
  · intro m
    simp [halconSampleHandler]

/-- `MeasuredTimes`: five per-stage durations in nanosecond ticks
(`std::chrono::nanoseconds` has a signed integer representation). -/
structure MeasuredTimes where
  captureDuration : Int
  pointCloudDuration : Int
  processDuration : Int
  copyDuration : Int
  totalDuration : Int
deriving DecidableEq, Repr

/-- The zero-initialized `MeasuredTimes{}`. -/
def MeasuredTimes.zero : MeasuredTimes := ⟨0, 0, 0, 0, 0⟩

/-- `MeasuredTimes::operator+=`: fieldwise addition. -/
def MeasuredTimes.addAssign (a b : MeasuredTimes) : MeasuredTimes :=
  ⟨a.captureDuration + b.captureDuration,
   a.pointCloudDuration + b.pointCloudDuration,
   a.processDuration + b.processDuration,
   a.copyDuration + b.copyDuration,
   a.totalDuration + b.totalDuration⟩

/-- `MeasuredTimes::operator/=(float f)` (lines 36–45): each member is
a `std::chrono::nanoseconds`, whose own `operator/=` takes the integer
representation type, so the float argument is converted back to an
integer (at the call sites `f` is exactly `30.0f`, converted to `30`)
and each tick count undergoes C++ integer division, which truncates
toward zero: `Int.tdiv`. -/
def MeasuredTimes.divAssign (a : MeasuredTimes) (n : Int) : MeasuredTimes :=
  ⟨a.captureDuration.tdiv n, a.pointCloudDuration.tdiv n,
   a.processDuration.tdiv n, a.copyDuration.tdiv n, a.totalDuration.tdiv n⟩

/-- `Measured2DTimes`: three per-stage durations in nanosecond ticks. -/
structure Measured2DTimes where
  captureDuration : Int
  imageRGBADuration : Int
  totalDuration : Int
deriving DecidableEq, Repr

/-- The zero-initialized `Measured2DTimes{}`. -/
def Measured2DTimes.zero : Measured2DTimes := ⟨0, 0, 0⟩

/-- `Measured2DTimes::operator+=`. -/
def Measured2DTimes.addAssign (a b : Measured2DTimes) : Measured2DTimes :=
  ⟨a.captureDuration + b.captureDuration,
   a.imageRGBADuration + b.imageRGBADuration,
   a.totalDuration + b.totalDuration⟩

/-- `Measured2DTimes::operator/=(float f)`: same truncating division as
`MeasuredTimes.divAssign`. -/
def Measured2DTimes.divAssign (a : Measured2DTimes) (n : Int) :
    Measured2DTimes :=
  ⟨a.captureDuration.tdiv n, a.imageRGBADuration.tdiv n,
   a.totalDuration.tdiv n⟩

/-- Lines 233–240: one camera's accumulation,
`averageTimes[j] += allTimes[i][j]` over all rounds, starting from the
zero-initialized slot. -/
def accumulate (rows : List MeasuredTimes) : MeasuredTimes :=
  rows.foldl MeasuredTimes.addAssign MeasuredTimes.zero

/-- Lines 241–244: accumulation followed by `avg /= numFrames3D`. -/
def averageTimes (rows : List MeasuredTimes) (numFrames : Int) :
    MeasuredTimes :=
  (accumulate rows).divAssign numFrames

/-- Lines 246–253: the 2D analog. -/
def accumulate2D (rows : List Measured2DTimes) : Measured2DTimes :=
  rows.foldl Measured2DTimes.addAssign Measured2DTimes.zero

/-- Lines 254–257: the 2D analog of the division step. -/
def averageTimes2D (rows : List Measured2DTimes) (numFrames : Int) :
    Measured2DTimes :=
  (accumulate2D rows).divAssign numFrames

theorem accumulate_go (rows : List MeasuredTimes) : ∀ a : MeasuredTimes,
    (rows.foldl MeasuredTimes.addAssign a).captureDuration
        = a.captureDuration + (rows.map (·.captureDuration)).sum ∧
    (rows.foldl MeasuredTimes.addAssign a).pointCloudDuration
        = a.pointCloudDuration + (rows.map (·.pointCloudDuration)).sum ∧
    (rows.foldl MeasuredTimes.addAssign a).processDuration
        = a.processDuration + (rows.map (·.processDuration)).sum ∧
    (rows.foldl MeasuredTimes.addAssign a).copyDuration
        = a.copyDuration + (rows.map (·.copyDuration)).sum ∧
    (rows.foldl MeasuredTimes.addAssign a).totalDuration
        = a.totalDuration + (rows.map (·.totalDuration)).sum := by
  induction rows with
  | nil => intro a; simp
  | cons r rows ih =>
    intro a
    obtain ⟨h1, h2, h3, h4, h5⟩ := ih (a.addAssign r)
    refine ⟨?_, ?_, ?_, ?_, ?_⟩ <;>
      rw [List.foldl_cons] <;>
      simp only [h1, h2, h3, h4, h5] <;>
      simp only [MeasuredTimes.addAssign, List.map_cons, List.sum_cons] <;>
      omega

theorem accumulate2D_go (rows : List Measured2DTimes) :
    ∀ a : Measured2DTimes,
    (rows.foldl Measured2DTimes.addAssign a).captureDuration
        = a.captureDuration + (rows.map (·.captureDuration)).sum ∧
    (rows.foldl Measured2DTimes.addAssign a).imageRGBADuration
        = a.imageRGBADuration + (rows.map (·.imageRGBADuration)).sum ∧
    (rows.foldl Measured2DTimes.addAssign a).totalDuration
        = a.totalDuration + (rows.map (·.totalDuration)).sum := by
  induction rows with
  | nil => intro a; simp
  | cons r rows ih =>
    intro a
    obtain ⟨h1, h2, h3⟩ := ih (a.addAssign r)
    refine ⟨?_, ?_, ?_⟩ <;>
      rw [List.foldl_cons] <;>
      simp only [h1, h2, h3] <;>
      simp only [Measured2DTimes.addAssign, List.map_cons, List.sum_cons] <;>
      omega

/-- C4 counterexample: 30 rounds whose capture durations sum to 1 ns
have arithmetic mean 1/30 ns, but the computed average is 0: the
division by the round count truncates to whole nanoseconds. -/
theorem average_not_exact_mean :
    (MeasuredTimes.mk 1 0 0 0 0 :: List.replicate 29 MeasuredTimes.zero).length
        = 30 ∧
    (averageTimes
        (MeasuredTimes.mk 1 0 0 0 0 :: List.replicate 29 MeasuredTimes.zero)
        30).captureDuration = 0 ∧
    (((((MeasuredTimes.mk 1 0 0 0 0 ::
          List.replicate 29 MeasuredTimes.zero).map
            (·.captureDuration)).sum : Int) : ℚ) / 30 = 1 / 30) ∧
    ((0 : ℚ) ≠ 1 / 30) := by
  refine ⟨by decide, by decide, ?_, by norm_num⟩
  norm_num [MeasuredTimes.zero]

/-- C4 (amended): for each camera, every reported average field (the
five 3D fields and the three 2D fields) equals the truncating integer
division of the summed per-round durations by the round count 30 —
i.e. the exact arithmetic mean rounded toward zero to whole
nanoseconds, which coincides with the exact mean only when the sum is
divisible by 30. -/
theorem average_is_truncated_sum (rows : List MeasuredTimes)
    (rows2D : List Measured2DTimes) :
    (averageTimes rows 30).captureDuration
        = ((rows.map fun t : MeasuredTimes => t.captureDuration).sum).tdiv 30 ∧
    (averageTimes rows 30).pointCloudDuration
        = ((rows.map fun t : MeasuredTimes => t.pointCloudDuration).sum).tdiv 30 ∧
    (averageTimes rows 30).processDuration
        = ((rows.map fun t : MeasuredTimes => t.processDuration).sum).tdiv 30 ∧
    (averageTimes rows 30).copyDuration
        = ((rows.map fun t : MeasuredTimes => t.copyDuration).sum).tdiv 30 ∧
    (averageTimes rows 30).totalDuration
        = ((rows.map fun t : MeasuredTimes => t.totalDuration).sum).tdiv 30 ∧
    (averageTimes2D rows2D 30).captureDuration
        = ((rows2D.map fun t : Measured2DTimes => t.captureDuration).sum).tdiv 30 ∧
    (averageTimes2D rows2D 30).imageRGBADuration
        = ((rows2D.map fun t : Measured2DTimes => t.imageRGBADuration).sum).tdiv 30 ∧
    (averageTimes2D rows2D 30).totalDuration
        = ((rows2D.map fun t : Measured2DTimes => t.totalDuration).sum).tdiv 30 := by
  obtain ⟨h1, h2, h3, h4, h5⟩ := accumulate_go rows MeasuredTimes.zero
  obtain ⟨g1, g2, g3⟩ := accumulate2D_go rows2D Measured2DTimes.zero
  refine ⟨?_, ?_, ?_, ?_, ?_, ?_, ?_, ?_⟩ <;>
    simp only [averageTimes, averageTimes2D, accumulate, accumulate2D,
      MeasuredTimes.divAssign, Measured2DTimes.divAssign] <;>
    simp only [h1, h2, h3, h4, h5, g1, g2, g3] <;>
    simp [MeasuredTimes.zero, Measured2DTimes.zero]

/-- The two capture phases of each measured round: the 2D captures
(lines 197–207) and the 3D captures (lines 211–225). -/
inductive Phase where
  | twoD
  | threeD
deriving DecidableEq, Repr, BEq

/-- One action of the driver (main) thread inside the measured capture
loop: launching a task via `std::async` for camera `cam`, collecting
its result via `future::get()`, or storing the collected result into
the shared slot `allTimes[round][cam]` (or `allTimes2D[round][cam]`). -/
inductive Ev where
  | launch (round : Nat) (ph : Phase) (cam : Nat)
  | collect (round : Nat) (ph : Phase) (cam : Nat)
  | store (round : Nat) (ph : Phase) (cam : Nat)
deriving DecidableEq, Repr, BEq

def Ev.round : Ev → Nat
  | .launch i _ _ => i
  | .collect i _ _ => i
  | .store i _ _ => i

def Ev.cam : Ev → Nat
  | .launch _ _ j => j
  | .collect _ _ j => j
  | .store _ _ j => j

def Ev.phase : Ev → Phase
  | .launch _ p _ => p
  | .collect _ p _ => p
  | .store _ p _ => p

def Ev.isLaunch : Ev → Bool
  | .launch _ _ _ => true
  | _ => false

def Ev.isCollect : Ev → Bool
  | .collect _ _ _ => true
  | _ => false

def Ev.isStore : Ev → Bool
  | .store _ _ _ => true
  | _ => false

/-- The driver-thread actions of one measured round `i` with `n`
cameras (lines 191–226 of the multi-camera source): launch one 2D task
per camera; then, for `j = 0..n-1`, `times2D[j].get()` followed by
`allTimes2D[i][j] = camTimes2D`; then the same two steps for the 3D
tasks and `allTimes[i][j]`. -/
def roundTrace (n i : Nat) : List Ev :=
  ((List.range n).map fun j => Ev.launch i .twoD j) ++
  (((List.range n).map fun j =>
      [Ev.collect i .twoD j, Ev.store i .twoD j]).flatten) ++
  ((List.range n).map fun j => Ev.launch i .threeD j) ++
  (((List.range n).map fun j =>
      [Ev.collect i .threeD j, Ev.store i .threeD j]).flatten)

/-- The driver-thread actions of the whole measured loop:
`numFrames3D` rounds in order. -/
def measuredTrace (n numFrames : Nat) : List Ev :=
  ((List.range numFrames).map fun i => roundTrace n i).flatten

/-- A linearization of the driver's progress: each event's position in
the round/phase schedule.  Launches of a phase come before its collects
and stores, and phases within and across rounds are ordered. -/
def Ev.stage : Ev → Nat
  | .launch i .twoD _ => 4 * i
  | .collect i .twoD _ => 4 * i + 1
  | .store i .twoD _ => 4 * i + 1
  | .launch i .threeD _ => 4 * i + 2
  | .collect i .threeD _ => 4 * i + 3
  | .store i .threeD _ => 4 * i + 3

/-- The (round, phase) key in launch order. -/
def Ev.phaseIdx : Ev → Nat
  | .launch i .twoD _ => 2 * i
  | .collect i .twoD _ => 2 * i
  | .store i .twoD _ => 2 * i
  | .launch i .threeD _ => 2 * i + 1
  | .collect i .threeD _ => 2 * i + 1
  | .store i .threeD _ => 2 * i + 1

@[simp] theorem stage_launch_twoD (i j : Nat) :
    (Ev.launch i Phase.twoD j).stage = 4 * i := rfl

@[simp] theorem stage_collect_twoD (i j : Nat) :
    (Ev.collect i Phase.twoD j).stage = 4 * i + 1 := rfl

@[simp] theorem stage_store_twoD (i j : Nat) :
    (Ev.store i Phase.twoD j).stage = 4 * i + 1 := rfl

@[simp] theorem stage_launch_threeD (i j : Nat) :
    (Ev.launch i Phase.threeD j).stage = 4 * i + 2 := rfl

@[simp] theorem stage_collect_threeD (i j : Nat) :
    (Ev.collect i Phase.threeD j).stage = 4 * i + 3 := rfl

@[simp] theorem stage_store_threeD (i j : Nat) :
    (Ev.store i Phase.threeD j).stage = 4 * i + 3 := rfl

@[simp] theorem round_launch (i p j) : (Ev.launch i p j).round = i := rfl

@[simp] theorem round_collect (i p j) : (Ev.collect i p j).round = i := rfl

@[simp] theorem round_store (i p j) : (Ev.store i p j).round = i := rfl

@[simp] theorem cam_launch (i p j) : (Ev.launch i p j).cam = j := rfl

@[simp] theorem cam_collect (i p j) : (Ev.collect i p j).cam = j := rfl

@[simp] theorem cam_store (i p j) : (Ev.store i p j).cam = j := rfl

theorem stage_mem_round (n i : Nat) (e : Ev) (he : e ∈ roundTrace n i) :
    4 * i ≤ e.stage ∧ e.stage ≤ 4 * i + 3 ∧ e.round = i := by
  simp only [roundTrace, List.mem_append, List.mem_flatten,
    List.mem_map] at he
  rcases he with ((⟨j, hj, rfl⟩ | ⟨l, ⟨j, hj, rfl⟩, hm⟩) | ⟨j, hj, rfl⟩) |
      ⟨l, ⟨j, hj, rfl⟩, hm⟩
  · simp only [stage_launch_twoD, round_launch]
    exact ⟨by omega, by omega, trivial⟩
  · simp only [List.mem_cons, List.not_mem_nil, or_false] at hm
    rcases hm with rfl | rfl <;> simp
  · simp only [stage_launch_threeD, round_launch]
    exact ⟨by omega, by omega, trivial⟩
  · simp only [List.mem_cons, List.not_mem_nil, or_false] at hm
    rcases hm with rfl | rfl <;> simp

theorem sorted_le_of_const (c : Nat) :
    ∀ l : List Nat, (∀ x ∈ l, x = c) → l.Sorted (· ≤ ·)
  | [], _ => List.sorted_nil
  | a :: l, h => by
    rw [List.sorted_cons]
    refine ⟨?_, sorted_le_of_const c l fun x hx =>
      h x (List.mem_cons_of_mem _ hx)⟩
    intro b hb
    rw [h a (List.mem_cons_self _ _), h b (List.mem_cons_of_mem _ hb)]

theorem sorted_le_append (l1 l2 : List Nat) (c : Nat)
    (h1 : ∀ x ∈ l1, x ≤ c) (h2 : ∀ y ∈ l2, c ≤ y)
    (s1 : l1.Sorted (· ≤ ·)) (s2 : l2.Sorted (· ≤ ·)) :
    (l1 ++ l2).Sorted (· ≤ ·) := by
  unfold List.Sorted at *
  rw [List.pairwise_append]
  exact ⟨s1, s2, fun x hx y hy => Nat.le_trans (h1 x hx) (h2 y hy)⟩

theorem stage_block_launch2D (n i : Nat) (x : Nat)
    (hx : x ∈ List.map Ev.stage ((List.range n).map fun j =>
      Ev.launch i Phase.twoD j)) :
    x = 4 * i := by
  simp only [List.map_map, List.mem_map, Function.comp] at hx
  obtain ⟨j, _, rfl⟩ := hx
  rfl

theorem stage_block_launch3D (n i : Nat) (x : Nat)
    (hx : x ∈ List.map Ev.stage ((List.range n).map fun j =>
      Ev.launch i Phase.threeD j)) :
    x = 4 * i + 2 := by
  simp only [List.map_map, List.mem_map, Function.comp] at hx
  obtain ⟨j, _, rfl⟩ := hx
  rfl

theorem stage_block_pairs2D (n i : Nat) (x : Nat)
    (hx : x ∈ List.map Ev.stage (((List.range n).map fun j =>
      [Ev.collect i Phase.twoD j, Ev.store i Phase.twoD j]).flatten)) :
    x = 4 * i + 1 := by
  simp only [List.mem_map, List.mem_flatten] at hx
  obtain ⟨e, ⟨l, ⟨j, hj, rfl⟩, hm⟩, rfl⟩ := hx
  simp only [List.mem_cons, List.not_mem_nil, or_false] at hm
  rcases hm with rfl | rfl <;> rfl

theorem stage_block_pairs3D (n i : Nat) (x : Nat)
    (hx : x ∈ List.map Ev.stage (((List.range n).map fun j =>
      [Ev.collect i Phase.threeD j, Ev.store i Phase.threeD j]).flatten)) :
    x = 4 * i + 3 := by
  simp only [List.mem_map, List.mem_flatten] at hx
  obtain ⟨e, ⟨l, ⟨j, hj, rfl⟩, hm⟩, rfl⟩ := hx
  simp only [List.mem_cons, List.not_mem_nil, or_false] at hm
  rcases hm with rfl | rfl <;> rfl

/-- Inside one round the driver's schedule positions are
non-decreasing. -/
theorem roundTrace_stage_sorted (n i : Nat) :
    ((roundTrace n i).map Ev.stage).Sorted (· ≤ ·) := by
  unfold roundTrace
  rw [List.map_append, List.map_append, List.map_append]
  have s1 := sorted_le_of_const (4 * i) _ (stage_block_launch2D n i)
  have s2 := sorted_le_of_const (4 * i + 1) _ (stage_block_pairs2D n i)
  have s3 := sorted_le_of_const (4 * i + 2) _ (stage_block_launch3D n i)
  have s4 := sorted_le_of_const (4 * i + 3) _ (stage_block_pairs3D n i)
  refine sorted_le_append _ _ (4 * i + 3) ?_ ?_ ?_ s4
  · intro x hx
    rcases List.mem_append.mp hx with hx | hx
    · rcases List.mem_append.mp hx with hx | hx
      · rw [stage_block_launch2D n i x hx]; omega
      · rw [stage_block_pairs2D n i x hx]; omega
    · rw [stage_block_launch3D n i x hx]; omega
  · intro y hy
    rw [stage_block_pairs3D n i y hy]
  refine sorted_le_append _ _ (4 * i + 2) ?_ ?_ ?_ s3
  · intro x hx
    rcases List.mem_append.mp hx with hx | hx
    · rw [stage_block_launch2D n i x hx]; omega
    · rw [stage_block_pairs2D n i x hx]; omega
  · intro y hy
    rw [stage_block_launch3D n i y hy]
  refine sorted_le_append _ _ (4 * i + 1) ?_ ?_ s1 s2
  · intro x hx
    rw [stage_block_launch2D n i x hx]; omega
  · intro y hy
    rw [stage_block_pairs2D n i y hy]

theorem mem_measuredTrace (n R : Nat) (e : Ev)
    (he : e ∈ measuredTrace n R) :
    ∃ i, i < R ∧ e ∈ roundTrace n i := by
  simp only [measuredTrace, List.mem_flatten, List.mem_map] at he
  obtain ⟨l, ⟨i, hi, rfl⟩, hm⟩ := he
  exact ⟨i, List.mem_range.mp hi, hm⟩

/-- Across the whole measured loop the driver's schedule positions are
non-decreasing: a collect of an earlier phase never comes after a
launch of a later one. -/
theorem measuredTrace_stage_sorted (n R : Nat) :
    ((measuredTrace n R).map Ev.stage).Sorted (· ≤ ·) := by
  induction R with
  | zero => simp [measuredTrace]
  | succ R ih =>
    have hsplit : measuredTrace n (R + 1)
        = measuredTrace n R ++ roundTrace n R := by
      simp [measuredTrace, List.range_succ]
    rw [hsplit, List.map_append]
    refine sorted_le_append _ _ (4 * R) ?_ ?_ ih (roundTrace_stage_sorted n R)
    · intro x hx
      obtain ⟨e, he, rfl⟩ := List.mem_map.mp hx
      obtain ⟨i, hi, hre⟩ := mem_measuredTrace n R e he
      have := stage_mem_round n i e hre
      omega
    · intro y hy
      obtain ⟨e, he, rfl⟩ := List.mem_map.mp hy
      have := stage_mem_round n R e he
      omega

/-- Does this event launch a task of round `i` (any phase)? -/
def isLaunchIn (i : Nat) : Ev → Bool
  | .launch i' _ _ => i' == i
  | _ => false

/-- Does this event launch a task of round `i`, phase `p`? -/
def isLaunchOf (i : Nat) (p : Phase) : Ev → Bool
  | .launch i' p' _ => i' == i && decide (p' = p)
  | _ => false

/-- Does this event store into result slot `[i][j]` of the result array
of phase `p` (`allTimes2D` or `allTimes`)? -/
def isStoreOf (i : Nat) (p : Phase) (j : Nat) : Ev → Bool
  | .store i' p' j' => i' == i && decide (p' = p) && j' == j
  | _ => false

theorem sum_map_range_eq_single (g : Nat → Nat) (c : Nat) :
    ∀ (R i : Nat), i < R → (∀ x, g x = if x = i then c else 0) →
      ((List.range R).map g).sum = c
  | 0, i, hi, _ => absurd hi (Nat.not_lt_zero i)
  | R + 1, i, hi, hg => by
    rw [List.range_succ, List.map_append, List.sum_append]
    by_cases h : i = R
    · subst h
      have hz : ((List.range i).map g).sum = 0 := by
        apply List.sum_eq_zero
        intro x hx
        obtain ⟨y, hy, rfl⟩ := List.mem_map.mp hx
        have hne : y ≠ i := by
          simp only [List.mem_range] at hy
          omega
        simp [hg y, hne]
      simp [hz, hg i]
    · have hi' : i < R := by omega
      have hrec := sum_map_range_eq_single g c R i hi' hg
      have hgR : g R = 0 := by
        simp [hg R, Ne.symm h]
      simp [hrec, hgR]

theorem roundTrace_countP_launchOf (n i' i : Nat) (p : Phase) :
    (roundTrace n i').countP (isLaunchOf i p)
      = (if i' = i ∧ p = Phase.twoD then n else 0)
        + (if i' = i ∧ p = Phase.threeD then n else 0) := by
  unfold roundTrace
  rw [List.countP_append, List.countP_append, List.countP_append]
  have b2 : ∀ q : Phase,
      (((List.range n).map fun j =>
        [Ev.collect i' q j, Ev.store i' q j]).flatten).countP
          (isLaunchOf i p) = 0 := by
    intro q
    rw [List.countP_eq_zero]
    intro e he
    simp only [List.mem_flatten, List.mem_map] at he
    obtain ⟨l, ⟨j, hj, rfl⟩, hm⟩ := he
    simp only [List.mem_cons, List.not_mem_nil, or_false] at hm
    rcases hm with rfl | rfl <;> simp [isLaunchOf]
  have b1 : ∀ q : Phase,
      ((List.range n).map fun j => Ev.launch i' q j).countP
          (isLaunchOf i p)
        = if i' = i ∧ p = q then n else 0 := by
    intro q
    rw [List.countP_map]
    by_cases hm : i' = i ∧ p = q
    · have heq : (isLaunchOf i p ∘ fun j => Ev.launch i' q j)
          = fun _ => true := by
        funext j
        simp [isLaunchOf, Function.comp, hm.1, hm.2]
      rw [heq, List.countP_true, List.length_range]
      simp [hm]
    · have hfalse : ∀ j : Nat,
          ¬((isLaunchOf i p ∘ fun j => Ev.launch i' q j) j = true) := by
        intro j
        simp only [Function.comp, isLaunchOf, Bool.and_eq_true, beq_iff_eq,
          decide_eq_true_eq]
        intro hc
        exact hm ⟨hc.1, hc.2.symm⟩
      rw [List.countP_eq_zero.mpr fun a _ => hfalse a]
      simp [hm]
  rw [b1 Phase.twoD, b1 Phase.threeD, b2 Phase.twoD, b2 Phase.threeD]
  omega

theorem measuredTrace_countP_launchOf (n R i : Nat) (p : Phase)
    (hi : i < R) :
    (measuredTrace n R).countP (isLaunchOf i p) = n := by
  unfold measuredTrace
  rw [List.countP_flatten, List.map_map]
  apply sum_map_range_eq_single _ n R i hi
  intro x
  simp only [Function.comp]
  rw [roundTrace_countP_launchOf n x i p]
  by_cases hx : x = i
  · subst hx
    cases p <;> simp
  · simp [hx]

theorem pairs_countP_storeOf (n i' i j : Nat) (q p : Phase) (hj : j < n) :
    (((List.range n).map fun m =>
      [Ev.collect i' q m, Ev.store i' q m]).flatten).countP
        (isStoreOf i p j)
      = if i' = i ∧ q = p then 1 else 0 := by
  rw [List.countP_flatten, List.map_map]
  by_cases hm : i' = i ∧ q = p
  · rw [if_pos hm]
    apply sum_map_range_eq_single _ 1 n j hj
    intro x
    simp only [Function.comp, List.countP_cons, List.countP_nil]
    have hc : isStoreOf i p j (Ev.collect i' q x) = false := by
      simp [isStoreOf]
    have hs : isStoreOf i p j (Ev.store i' q x)
        = ((x == j : Bool) : Bool) := by
      simp [isStoreOf, hm.1, hm.2]
    rw [hc, hs]
    by_cases hx : x = j <;> simp [hx]
  · rw [if_neg hm]
    have hz : ∀ l ∈ (List.range n).map fun m =>
        [Ev.collect i' q m, Ev.store i' q m],
        l.countP (isStoreOf i p j) = 0 := by
      intro l hl
      obtain ⟨m, hmem, rfl⟩ := List.mem_map.mp hl
      rw [List.countP_eq_zero]
      intro e he
      simp only [List.mem_cons, List.not_mem_nil, or_false] at he
      rcases he with rfl | rfl
      · simp [isStoreOf]
      · simp only [isStoreOf, Bool.and_eq_true, beq_iff_eq,
          decide_eq_true_eq]
        intro hc
        exact hm ⟨hc.1.1, hc.1.2⟩
    apply List.sum_eq_zero
    intro x hx
    obtain ⟨m, hmem, rfl⟩ := List.mem_map.mp hx
    simp only [Function.comp]
    exact hz _ (List.mem_map_of_mem _ hmem)

theorem roundTrace_countP_storeOf (n i' i j : Nat) (p : Phase)
    (hj : j < n) :
    (roundTrace n i').countP (isStoreOf i p j)
      = if i' = i then 1 else 0 := by
  unfold roundTrace
  rw [List.countP_append, List.countP_append, List.countP_append]
  have bl : ∀ q : Phase,
      ((List.range n).map fun m => Ev.launch i' q m).countP
        (isStoreOf i p j) = 0 := by
    intro q
    rw [List.countP_eq_zero]
    intro e he
    obtain ⟨m, hmem, rfl⟩ := List.mem_map.mp he
    simp [isStoreOf]
  rw [bl Phase.twoD, bl Phase.threeD,
    pairs_countP_storeOf n i' i j Phase.twoD p hj,
    pairs_countP_storeOf n i' i j Phase.threeD p hj]
  cases p <;> by_cases hi : i' = i <;> simp [hi]

theorem measuredTrace_countP_storeOf (n R i j : Nat) (p : Phase)
    (hi : i < R) (hj : j < n) :
    (measuredTrace n R).countP (isStoreOf i p j) = 1 := by
  unfold measuredTrace
  rw [List.countP_flatten, List.map_map]
  apply sum_map_range_eq_single _ 1 R i hi
  intro x
  simp only [Function.comp]
  rw [roundTrace_countP_storeOf n x i j p hj]

theorem cam_mem_round (n i : Nat) (e : Ev) (he : e ∈ roundTrace n i) :
    e.cam < n := by
  simp only [roundTrace, List.mem_append, List.mem_flatten,
    List.mem_map] at he
  rcases he with ((⟨j, hj, rfl⟩ | ⟨l, ⟨j, hj, rfl⟩, hm⟩) | ⟨j, hj, rfl⟩) |
      ⟨l, ⟨j, hj, rfl⟩, hm⟩
  · simpa using List.mem_range.mp hj
  · simp only [List.mem_cons, List.not_mem_nil, or_false] at hm
    rcases hm with rfl | rfl <;> simpa using List.mem_range.mp hj
  · simpa using List.mem_range.mp hj
  · simp only [List.mem_cons, List.not_mem_nil, or_false] at hm
    rcases hm with rfl | rfl <;> simpa using List.mem_range.mp hj

theorem mem_measuredTrace_bounds (n R : Nat) (e : Ev)
    (he : e ∈ measuredTrace n R) : e.round < R ∧ e.cam < n := by
  obtain ⟨i, hi, hre⟩ := mem_measuredTrace n R e he
  refine ⟨?_, cam_mem_round n i e hre⟩
  have hr := (stage_mem_round n i e hre).2.2
  omega

@[simp] theorem phaseIdx_launch_twoD (i j : Nat) :
    (Ev.launch i Phase.twoD j).phaseIdx = 2 * i := rfl

@[simp] theorem phaseIdx_collect_twoD (i j : Nat) :
    (Ev.collect i Phase.twoD j).phaseIdx = 2 * i := rfl

@[simp] theorem phaseIdx_store_twoD (i j : Nat) :
    (Ev.store i Phase.twoD j).phaseIdx = 2 * i := rfl

@[simp] theorem phaseIdx_launch_threeD (i j : Nat) :
    (Ev.launch i Phase.threeD j).phaseIdx = 2 * i + 1 := rfl

@[simp] theorem phaseIdx_collect_threeD (i j : Nat) :
    (Ev.collect i Phase.threeD j).phaseIdx = 2 * i + 1 := rfl

@[simp] theorem phaseIdx_store_threeD (i j : Nat) :
    (Ev.store i Phase.threeD j).phaseIdx = 2 * i + 1 := rfl

@[simp] theorem isLaunch_launch (i : Nat) (p : Phase) (j : Nat) :
    (Ev.launch i p j).isLaunch = true := rfl

@[simp] theorem isLaunch_collect (i : Nat) (p : Phase) (j : Nat) :
    (Ev.collect i p j).isLaunch = false := rfl

@[simp] theorem isLaunch_store (i : Nat) (p : Phase) (j : Nat) :
    (Ev.store i p j).isLaunch = false := rfl

@[simp] theorem isCollect_launch (i : Nat) (p : Phase) (j : Nat) :
    (Ev.launch i p j).isCollect = false := rfl

@[simp] theorem isCollect_collect (i : Nat) (p : Phase) (j : Nat) :
    (Ev.collect i p j).isCollect = true := rfl

@[simp] theorem isCollect_store (i : Nat) (p : Phase) (j : Nat) :
    (Ev.store i p j).isCollect = false := rfl

theorem stage_of_launch (e : Ev) (h : e.isLaunch = true) :
    e.stage = 2 * e.phaseIdx := by
  cases e with
  | launch i p j => cases p <;> simp <;> omega
  | collect i p j => simp at h
  | store i p j => simp at h

theorem stage_of_collect (e : Ev) (h : e.isCollect = true) :
    e.stage = 2 * e.phaseIdx + 1 := by
  cases e with
  | launch i p j => simp at h
  | collect i p j => cases p <;> simp <;> omega
  | store i p j => simp at h

/-- C3 counterexample: with one connected camera the measured loop
issues two capture tasks in round 0 — one 2D and one 3D — not exactly
`n = 1`. -/
theorem round_task_count_cex :
    (measuredTrace 1 30).countP (isLaunchIn 0) = 2 ∧ 2 ≠ 1 := by
  constructor
  · decide
  · decide

/-- C3 (amended): per measured round the driver issues exactly `n` 2D
capture tasks and exactly `n` 3D capture tasks (2n in total, not n),
and the rounds are barrier-synchronized: a task of a later phase (the
3D phase of the same round, or any phase of a later round) is launched
only after every collect of each earlier phase — so the round does not
advance until all `n` results of each fan-out have been collected. -/
theorem measured_loop_barrier (n : Nat) :
    (∀ i, i < 30 →
      (measuredTrace n 30).countP (isLaunchOf i Phase.twoD) = n ∧
      (measuredTrace n 30).countP (isLaunchOf i Phase.threeD) = n) ∧
    (∀ p q : Fin (measuredTrace n 30).length,
      ((measuredTrace n 30).get p).isLaunch = true →
      ((measuredTrace n 30).get q).isCollect = true →
      ((measuredTrace n 30).get q).phaseIdx
        < ((measuredTrace n 30).get p).phaseIdx →
      q < p) := by
  constructor
  · intro i hi
    exact ⟨measuredTrace_countP_launchOf n 30 i Phase.twoD hi,
      measuredTrace_countP_launchOf n 30 i Phase.threeD hi⟩
  · intro p q hp hq hlt
    simp only [List.get_eq_getElem] at hp hq hlt
    by_contra hle
    rcases Nat.lt_or_ge p.1 q.1 with hpq | hpq
    · have hs := measuredTrace_stage_sorted n 30
      have hrel := @List.Sorted.rel_get_of_lt _ _ _ hs
        ⟨p.1, by simp⟩ ⟨q.1, by simp⟩
        (by simpa using hpq)
      simp only [List.get_eq_getElem, List.getElem_map] at hrel
      have hsp := stage_of_launch _ hp
      have hsq := stage_of_collect _ hq
      simp only [List.get_eq_getElem] at hsp hsq
      omega
    · rcases Nat.eq_or_lt_of_le hpq with heq | hql
      · have : p = q := Fin.ext heq.symm
        subst this
        cases hge : (measuredTrace n 30)[p.1] with
        | launch i ph j => rw [hge] at hq; simp at hq
        | collect i ph j => rw [hge] at hp; simp at hp
        | store i ph j => rw [hge] at hp; simp at hp
      · exact hle (by exact_mod_cast hql)

set_option maxRecDepth 10000 in
theorem measured_loop_barrier_witness :
    (0 : Nat) < 30 ∧
    ((measuredTrace 1 30).countP (isLaunchOf 0 Phase.twoD) = 1 ∧
      (measuredTrace 1 30).countP (isLaunchOf 0 Phase.threeD) = 1) ∧
    (⟨1, by decide⟩ : Fin (measuredTrace 1 30).length) < ⟨3, by decide⟩ :=
  ⟨by decide, (measured_loop_barrier 1).1 0 (by decide),
   (measured_loop_barrier 1).2 ⟨3, by decide⟩ ⟨1, by decide⟩
     (by decide) (by decide) (by decide)⟩

/-- C7: per-camera timing results go into shared slots indexed by round
and camera position; in the driver's sequential trace every slot
`allTimes[i][j]` (and `allTimes2D[i][j]`) is stored to exactly once —
by the store that follows collecting the round-`i` future of camera
`j` —
and every store stays within the `30 × n` bounds.  The capture tasks
themselves write no shared storage (they return their `MeasuredTimes`
by value), and all stores are performed by the single driver thread, so
no two accesses race. -/
theorem result_slot_writes (n i j : Nat) (p : Phase)
    (hi : i < 30) (hj : j < n) :
    (measuredTrace n 30).countP (isStoreOf i p j) = 1 ∧
    ∀ e ∈ measuredTrace n 30, e.round < 30 ∧ e.cam < n :=
  ⟨measuredTrace_countP_storeOf n 30 i j p hi hj,
   fun e he => mem_measuredTrace_bounds n 30 e he⟩

set_option maxRecDepth 10000 in
theorem result_slot_writes_witness :
    (0 : Nat) < 30 ∧ (0 : Nat) < 1 ∧
    ((measuredTrace 1 30).countP (isStoreOf 0 Phase.twoD 0) = 1 ∧
      ∀ e ∈ measuredTrace 1 30, e.round < 30 ∧ e.cam < 1) :=
  ⟨by decide, by decide,
   result_slot_writes 1 0 0 Phase.twoD (by decide) (by decide)⟩

/-- The outcome of one capture task: the value it returns, or the
exception (message) it throws, stored in its `std::future`. -/
abbrev TaskOutcome (A : Type) := Except String A

/-- Lines 171–183: one warmup pass launches one task per camera and
calls `future.wait()` on each.  `wait()` only blocks until the shared
state is ready; unlike `get()` it never rethrows a stored exception,
and the futures are then destroyed, discarding any exception.  The
outcomes therefore exist but nothing of them flows onward. -/
def warmupRounds (n : Nat)
    (warm : Nat → Nat → TaskOutcome MeasuredTimes) :
    List (List (TaskOutcome MeasuredTimes)) :=
  (List.range 5).map fun w => (List.range n).map fun j => warm w j

/-- The driver's sequential `future::get()` loop over a list of task
outcomes: the first stored exception is rethrown and ends the loop,
otherwise all values are collected in order. -/
def collectAll {A : Type} : List (Except String A) → Except String (List A)
  | [] => Except.ok []
  | x :: xs => do
    let v ← x
    let vs ← collectAll xs
    pure (v :: vs)

/-- Lines 191–226: one measured round.  The driver launches the 2D
tasks, then calls `times2D[j].get()` for `j = 0..n-1` — `get()`
rethrows a stored exception, so the first failing future aborts the
round — then does the same for the 3D tasks. -/
def runMeasuredRound (n : Nat)
    (out2D : Nat → TaskOutcome Measured2DTimes)
    (out3D : Nat → TaskOutcome MeasuredTimes) :
    Except String (List Measured2DTimes × List MeasuredTimes) := do
  let r2 ← collectAll ((List.range n).map out2D)
  let r3 ← collectAll ((List.range n).map out3D)
  pure (r2, r3)

/-- The body of the multi-camera `main` after connecting: five warmup
passes whose task outcomes are discarded at `wait()`, then 30 measured
rounds whose task outcomes are collected with `get()`.  An exception
rethrown by any `get()` propagates out of the try block of `main`
(there is
no catch before the top level), aborting the loop. -/
def runMain (n : Nat)
    (warm : Nat → Nat → TaskOutcome MeasuredTimes)
    (out2D : Nat → Nat → TaskOutcome Measured2DTimes)
    (out3D : Nat → Nat → TaskOutcome MeasuredTimes) :
    Except String
      (List (List Measured2DTimes × List MeasuredTimes)) :=
  let _discarded := warmupRounds n warm
  collectAll ((List.range 30).map fun i =>
    runMeasuredRound n (out2D i) (out3D i))

/-- An always-throwing warmup task and always-succeeding measured
tasks, for exhibiting the warmup behaviour. -/
def warmBoom : Nat → Nat → TaskOutcome MeasuredTimes :=
  fun _ _ => Except.error "camera failure during warmup"

def ok2D : Nat → Nat → TaskOutcome Measured2DTimes :=
  fun _ _ => Except.ok ⟨1, 2, 3⟩

def ok3D : Nat → Nat → TaskOutcome MeasuredTimes :=
  fun _ _ => Except.ok ⟨1, 2, 3, 4, 5⟩

/-- C5 counterexample: every warmup task throws, yet the run completes
with all 30 measured rounds' results: the warmup loop waits with
`future.wait()`, which does not rethrow, so a warmup exception never
propagates and does not abort the run. -/
theorem warmup_exception_swallowed :
    warmBoom 0 0 = Except.error "camera failure during warmup" ∧
    runMain 1 warmBoom ok2D ok3D
      = Except.ok (List.replicate 30 ([⟨1, 2, 3⟩], [⟨1, 2, 3, 4, 5⟩])) := by
  constructor
  · rfl
  · rfl


theorem collectAll_error_iff {A : Type} : ∀ l : List (Except String A),
    (∃ e, collectAll l = Except.error e)
      ↔ ∃ x ∈ l, ∃ e, x = Except.error e := by
  intro l
  induction l with
  | nil =>
    simp [collectAll]
  | cons x l ih =>
    cases x with
    | error e =>
      simp [collectAll, bind, Except.bind]
    | ok a =>
      simp only [collectAll, bind, Except.bind, List.mem_cons]
      cases hm : collectAll l with
      | error e =>
        have hr : ∃ x ∈ l, ∃ e, x = Except.error e := ih.mp ⟨e, hm⟩
        constructor
        · intro _
          obtain ⟨y, hy, he⟩ := hr
          exact ⟨y, Or.inr hy, he⟩
        · intro _
          exact ⟨e, rfl⟩
      | ok v =>
        constructor
        · intro ⟨e, he⟩
          simp [pure, Except.pure] at he
        · intro ⟨y, hy, e, he⟩
          rcases hy with rfl | hy'
          · cases he
          · have hl : ∃ e, collectAll l = Except.error e :=
              ih.mpr ⟨y, hy', e, he⟩
            rw [hm] at hl
            obtain ⟨e', he'⟩ := hl
            cases he'

theorem runMeasuredRound_error_iff (n : Nat)
    (out2D : Nat → TaskOutcome Measured2DTimes)
    (out3D : Nat → TaskOutcome MeasuredTimes) :
    (∃ e, runMeasuredRound n out2D out3D = Except.error e)
      ↔ ∃ j, j < n ∧
        ((∃ e, out2D j = Except.error e) ∨ (∃ e, out3D j = Except.error e)) := by
  have h2iff := collectAll_error_iff ((List.range n).map out2D)
  have h3iff := collectAll_error_iff ((List.range n).map out3D)
  unfold runMeasuredRound
  cases h2 : collectAll ((List.range n).map out2D) with
  | error e =>
    simp only [h2, bind, Except.bind]
    constructor
    · intro _
      obtain ⟨x, hx, e', he'⟩ := h2iff.mp ⟨e, h2⟩
      obtain ⟨j, hj, rfl⟩ := List.mem_map.mp hx
      exact ⟨j, List.mem_range.mp hj, Or.inl ⟨e', he'⟩⟩
    · intro _
      exact ⟨e, rfl⟩
  | ok v2 =>
    simp only [h2, bind, Except.bind]
    cases h3 : collectAll ((List.range n).map out3D) with
    | error e =>
      simp only [h3]
      constructor
      · intro _
        obtain ⟨x, hx, e', he'⟩ := h3iff.mp ⟨e, h3⟩
        obtain ⟨j, hj, rfl⟩ := List.mem_map.mp hx
        exact ⟨j, List.mem_range.mp hj, Or.inr ⟨e', he'⟩⟩
      · intro _
        exact ⟨e, rfl⟩
    | ok v3 =>
      simp only [h3, pure, Except.pure]
      constructor
      · intro ⟨e, he⟩
        cases he
      · intro ⟨j, hj, hor⟩
        rcases hor with ⟨e, he⟩ | ⟨e, he⟩
        · have hx : ∃ e, collectAll ((List.range n).map out2D)
              = Except.error e :=
            h2iff.mpr ⟨out2D j,
              List.mem_map_of_mem _ (List.mem_range.mpr hj), e, he⟩
          rw [h2] at hx
          obtain ⟨e', he'⟩ := hx
          cases he'
        · have hx : ∃ e, collectAll ((List.range n).map out3D)
              = Except.error e :=
            h3iff.mpr ⟨out3D j,
              List.mem_map_of_mem _ (List.mem_range.mpr hj), e, he⟩
          rw [h3] at hx
          obtain ⟨e', he'⟩ := hx
          cases he'

/-- C5 (amended): warmup-task exceptions are discarded at the
`future.wait()` calls and never influence the run — the result is
independent of the warmup outcomes — while an exception stored by any
measured-round capture task is rethrown at the driver's
`future::get()`, propagates out of the try block of `main` with no
local
recovery or retry, and aborts the whole run with no partial results:
the run fails exactly when some measured task fails. -/
theorem exception_propagation (n : Nat)
    (warm warm' : Nat → Nat → TaskOutcome MeasuredTimes)
    (out2D : Nat → Nat → TaskOutcome Measured2DTimes)
    (out3D : Nat → Nat → TaskOutcome MeasuredTimes) :
    runMain n warm out2D out3D = runMain n warm' out2D out3D ∧
    ((∃ e, runMain n warm out2D out3D = Except.error e) ↔
      ∃ i, i < 30 ∧ ∃ j, j < n ∧
        ((∃ e, out2D i j = Except.error e) ∨
         (∃ e, out3D i j = Except.error e))) := by
  refine ⟨rfl, ?_⟩
  have hEq : runMain n warm out2D out3D
      = collectAll ((List.range 30).map fun i =>
          runMeasuredRound n (out2D i) (out3D i)) := rfl
  rw [hEq, collectAll_error_iff]
  constructor
  · intro ⟨x, hx, e, he⟩
    obtain ⟨i, hi, rfl⟩ := List.mem_map.mp hx
    obtain ⟨j, hj, hor⟩ :=
      (runMeasuredRound_error_iff n (out2D i) (out3D i)).mp ⟨e, he⟩
    exact ⟨i, List.mem_range.mp hi, j, hj, hor⟩
  · intro ⟨i, hi, j, hj, hor⟩
    obtain ⟨e, he⟩ :=
      (runMeasuredRound_error_iff n (out2D i) (out3D i)).mpr ⟨j, hj, hor⟩
    exact ⟨_, List.mem_map_of_mem _ (List.mem_range.mpr hi), e, he⟩
